import Mathlib

/-!
Verification of the meal-battle repository.

`BattleModel` (src: meal_max/models/battle_model.py) is embedded directly
from the source.  Numeric fields (`price`, scores, the random sample) are
modelled as rationals; the source's arithmetic on them is a single
multiply/subtract and comparisons, stated here exactly.

The kitchen model (MealStore) is not present in the sources, only its tests
and callers; its operations are modelled from the spec (each such
definition's doc comment says so).
-/

set_option linter.unusedVariables false

namespace MealMax

/-- A meal record as used by the battle model: `Meal(id, meal, cuisine,
price, difficulty)`.  `meal` is the meal's name. -/
structure Meal where
  id : Nat
  meal : String
  cuisine : String
  price : ℚ
  difficulty : String
  deriving DecidableEq, Repr

/-- The dict `{"HIGH": 1, "MED": 2, "LOW": 3}` of
`BattleModel.get_battle_score`: any other key is a `KeyError`, modelled as
`none`. -/
def difficulty_modifier (d : String) : Option ℚ :=
  if d = "HIGH" then some 1
  else if d = "MED" then some 2
  else if d = "LOW" then some 3
  else none

/-- `BattleModel.get_battle_score(self, combatant)`:
`score = (combatant.price * len(combatant.cuisine)) - difficulty_modifier[combatant.difficulty]`.
The `combatants` argument stands for `self`'s roster, which the source
method never reads; the dictionary lookup can fail, hence `Option`. -/
def get_battle_score (combatants : List Meal) (combatant : Meal) : Option ℚ :=
  (difficulty_modifier combatant.difficulty).map
    (fun w => combatant.price * (combatant.cuisine.length : ℚ) - w)

/-- Errors raised by the battle model: `ValueError(msg)` for arena misuse
and the `KeyError` a bad difficulty triggers in `get_battle_score`. -/
inductive BattleErr where
  | valueError (msg : String)
  | keyError (key : String)
  deriving DecidableEq, Repr

/-- Observable external calls made during `battle()`: the `get_random()`
call and each `update_meal_stats(id, outcome)` call, in order. -/
inductive Ev where
  | getRandom
  | updateStats (id : Nat) (outcome : String)
  deriving DecidableEq, Repr

/-- Result of one `battle()` call: the trace of external calls it made (in
order), the roster it leaves behind, and either the winner's name or the
exception raised. -/
structure BattleResult where
  events : List Ev
  combatants : List Meal
  outcome : Except BattleErr String
  deriving Repr

instance {ε α : Type} [DecidableEq ε] [DecidableEq α] :
    DecidableEq (Except ε α) := fun a b =>
  match a, b with
  | .ok x, .ok y => decidable_of_iff (x = y) (by simp)
  | .error x, .error y => decidable_of_iff (x = y) (by simp)
  | .ok _, .error _ => isFalse (by simp)
  | .error _, .ok _ => isFalse (by simp)

instance : DecidableEq BattleResult := fun a b =>
  decidable_of_iff
    (a.events = b.events ∧ a.combatants = b.combatants ∧ a.outcome = b.outcome)
    (by cases a; cases b; simp)

/-- `BattleModel.battle(self)`, with the roster as explicit state and the
random sample `r` as the value `get_random()` would return.  Mirrors the
source order: length check, score of combatant 0, score of combatant 1
(each may raise `KeyError` before any random call), `delta = |s1 - s2| / 100`,
`get_random()`, the comparison `delta > r`, the two `update_meal_stats`
calls (winner `'win'` first), removal of the first roster entry equal to
the loser, and the winner's name as return value. -/
def battle (combatants : List Meal) (r : ℚ) : BattleResult :=
  match combatants with
  | c1 :: c2 :: rest =>
    match get_battle_score (c1 :: c2 :: rest) c1 with
    | none => ⟨[], c1 :: c2 :: rest, .error (.keyError c1.difficulty)⟩
    | some score_1 =>
      match get_battle_score (c1 :: c2 :: rest) c2 with
      | none => ⟨[], c1 :: c2 :: rest, .error (.keyError c2.difficulty)⟩
      | some score_2 =>
        let delta := |score_1 - score_2| / 100
        let winner := if delta > r then c1 else c2
        let loser := if delta > r then c2 else c1
        { events := [.getRandom, .updateStats winner.id "win",
                     .updateStats loser.id "loss"],
          combatants := (c1 :: c2 :: rest).erase loser,
          outcome := .ok winner.meal }
  | l => ⟨[], l, .error (.valueError "Two combatants must be prepped for a battle.")⟩

/-- `BattleModel.prep_combatant(self, combatant_data)`: raises if the
roster already has two (or more) entries, otherwise appends. -/
def prep_combatant (combatants : List Meal) (combatant_data : Meal) :
    Except BattleErr (List Meal) :=
  if combatants.length ≥ 2 then
    .error (.valueError "Combatant list is full, cannot add more combatants.")
  else
    .ok (combatants ++ [combatant_data])

/-- `BattleModel.clear_combatants(self)`. -/
def clear_combatants (combatants : List Meal) : List Meal := []

/-- `BattleModel.get_combatants(self)`. -/
def get_combatants (combatants : List Meal) : List Meal := combatants

/-! ### The MealStore, modelled from the spec

The kitchen model's implementation is absent from the sources (only its
tests and the battle model's calls to it exist), so the store is modelled
from the spec, using the error messages the repository's own tests pin
down. -/

/-- Error taxonomy of the store operations (spec section 7): `InvalidInput`,
`NotFound`, `Conflict`, each carrying its message. -/
inductive StoreErr where
  | invalidInput (msg : String)
  | notFound (msg : String)
  | conflict (msg : String)
  deriving DecidableEq, Repr

/-- A persisted meal row: the immutable meal fields plus the mutable
counters `battles`, `wins` and the soft-delete flag. -/
structure MealRow where
  id : Nat
  meal : String
  cuisine : String
  price : ℚ
  difficulty : String
  battles : Nat
  wins : Nat
  deleted : Bool
  deriving DecidableEq, Repr

/-- The persistent store: rows in insertion order plus the next id the
store will assign (ids are never reused). -/
structure Store where
  rows : List MealRow
  nextId : Nat
  deriving DecidableEq, Repr

/-- The empty store. -/
def emptyStore : Store := ⟨[], 1⟩

/-- Modelled from the spec: `create(name, cuisine, price, difficulty)` of
the missing kitchen model.  Validates `price > 0` (InvalidInput naming the
rejected value), then `difficulty ∈ {LOW, MED, HIGH}` (InvalidInput), then
name uniqueness among non-deleted rows (Conflict); otherwise persists a new
row with `battles = 0, wins = 0, deleted = false` and a fresh id.  Error
messages follow test_kitchen_model.py. -/
def create_meal (s : Store) (meal cuisine : String) (price : ℚ)
    (difficulty : String) : Except StoreErr Store :=
  if price ≤ 0 then
    .error (.invalidInput ("Invalid price: " ++ toString price ++
      ". Price must be a positive number."))
  else if difficulty ≠ "LOW" ∧ difficulty ≠ "MED" ∧ difficulty ≠ "HIGH" then
    .error (.invalidInput ("Invalid difficulty level: " ++ difficulty ++
      ". Must be 'LOW', 'MED', or 'HIGH'."))
  else if s.rows.any (fun row => !row.deleted && row.meal == meal) then
    .error (.conflict ("Meal with name " ++ meal ++ " already exists"))
  else
    .ok ⟨s.rows ++ [⟨s.nextId, meal, cuisine, price, difficulty, 0, 0, false⟩],
         s.nextId + 1⟩

/-- Modelled from the spec: `delete(id)` of the missing kitchen model.
NotFound if no non-deleted row has this id; otherwise sets the row's
soft-delete flag. -/
def delete_meal (s : Store) (id : Nat) : Except StoreErr Store :=
  if s.rows.any (fun row => row.id == id && !row.deleted) then
    .ok ⟨s.rows.map (fun row =>
          if row.id == id then { row with deleted := true } else row),
         s.nextId⟩
  else
    .error (.notFound ("Meal with ID " ++ toString id ++ " not found"))

/-- Modelled from the spec: `updateStats(id, outcome)` of the missing
kitchen model.  An outcome other than exactly `'win'` or `'loss'` fails
with InvalidInput before the store is consulted; NotFound if the meal is
absent or deleted; on `'win'` both counters are incremented, on `'loss'`
only `battles`. -/
def update_meal_stats (s : Store) (id : Nat) (result : String) :
    Except StoreErr Store :=
  if result ≠ "win" ∧ result ≠ "loss" then
    .error (.invalidInput ("Invalid result: " ++ result ++
      ". Expected 'win' or 'loss'."))
  else if s.rows.any (fun row => row.id == id && !row.deleted) then
    .ok ⟨s.rows.map (fun row =>
          if row.id == id && !row.deleted then
            if result = "win" then
              { row with battles := row.battles + 1, wins := row.wins + 1 }
            else
              { row with battles := row.battles + 1 }
          else row),
         s.nextId⟩
  else
    .error (.notFound ("Meal with ID " ++ toString id ++ " not found"))

/-- Modelled from the spec: `clearAll()` resets the store to its empty
schema state. -/
def clear_meals (s : Store) : Store := emptyStore

/-- Leaderboard sort key selector: by `wins` (the default) or by
`win_ratio`. -/
inductive SortBy where
  | wins
  | winRatio
  deriving DecidableEq, Repr

/-- Modelled from the spec: the derived `win_ratio` of a row,
`wins / battles`, and `0` when `battles = 0`. -/
def win_ratio (row : MealRow) : ℚ :=
  if row.battles = 0 then 0 else (row.wins : ℚ) / (row.battles : ℚ)

/-- The key a leaderboard entry is sorted by. -/
def leaderboard_key (sortBy : SortBy) (e : MealRow × ℚ) : ℚ :=
  match sortBy with
  | .wins => (e.1.wins : ℚ)
  | .winRatio => e.2

/-- Descending-by-key comparison used for the leaderboard sort: `a` may
precede `b` iff `key b ≤ key a`.  With `List.insertionSort` (which inserts
each element before the first entry it compares `≤`-favourably to) this
yields a stable descending sort. -/
def keyGE (key : α → ℚ) (a b : α) : Prop := key b ≤ key a

instance (key : α → ℚ) : DecidableRel (keyGE key) := fun a b =>
  inferInstanceAs (Decidable (key b ≤ key a))

instance (key : α → ℚ) : IsTotal α (keyGE key) :=
  ⟨fun a b => le_total (key b) (key a)⟩

instance (key : α → ℚ) : IsTrans α (keyGE key) :=
  ⟨fun _ _ _ h1 h2 => le_trans h2 h1⟩

/-- Modelled from the spec: `getLeaderboard(sortBy)` of the missing kitchen
model.  All non-deleted rows, each paired with its `win_ratio`, sorted
descending by the selected key with a stable sort (ties keep insertion
order). -/
def get_leaderboard (s : Store) (sortBy : SortBy) : List (MealRow × ℚ) :=
  List.insertionSort (keyGE (leaderboard_key sortBy))
    ((s.rows.filter (fun row => !row.deleted)).map
      (fun row => (row, win_ratio row)))

/-- The reachable store states: the empty store, closed under the
successful store operations, with `clear_meals` returning to the empty
store. -/
inductive Reachable : Store → Prop where
  | init : Reachable emptyStore
  | create {s s' : Store} {n c d : String} {p : ℚ} :
      Reachable s → create_meal s n c p d = .ok s' → Reachable s'
  | delete {s s' : Store} {id : Nat} :
      Reachable s → delete_meal s id = .ok s' → Reachable s'
  | update {s s' : Store} {id : Nat} {res : String} :
      Reachable s → update_meal_stats s id res = .ok s' → Reachable s'
  | clear {s : Store} : Reachable s → Reachable (clear_meals s)

/-- Meal A of the spec's concrete battle scenario (score 10 * 7 - 2 = 68). -/
def pizzaMeal : Meal := ⟨1, "Pizza", "Italian", 10, "MED"⟩

/-- Meal B of the spec's concrete battle scenario (score 12 * 8 - 1 = 95). -/
def sushiMeal : Meal := ⟨2, "Sushi", "Japanese", 12, "HIGH"⟩

/-- A one-row store used to instantiate store theorems. -/
def sampleStore : Store := ⟨[⟨1, "Pizza", "Italian", 10, "MED", 0, 0, false⟩], 2⟩

/-- The store produced by creating Pizza in the empty store. -/
def storeAfterCreate : Store :=
  ⟨[⟨1, "Pizza", "Italian", 10, "MED", 0, 0, false⟩], 2⟩

/-- `storeAfterCreate` after recording a win for meal 1. -/
def storeAfterWin : Store :=
  ⟨[⟨1, "Pizza", "Italian", 10, "MED", 1, 1, false⟩], 2⟩

/-! ### Helper lemmas -/

lemma erase_pair_left (c1 c2 : Meal) : [c1, c2].erase c1 = [c2] := by
  simp [List.erase_cons]

lemma erase_pair_right (c1 c2 : Meal) : [c1, c2].erase c2 = [c1] := by
  by_cases h : c1 = c2
  · subst h; simp [List.erase_cons]
  · simp [List.erase_cons, h, beq_iff_eq]

lemma score_pizza : get_battle_score [pizzaMeal, sushiMeal] pizzaMeal = some 68 := by
  simp [get_battle_score, difficulty_modifier, pizzaMeal]
  rw [show ("Italian".length = 7) from rfl]
  norm_num

lemma score_sushi : get_battle_score [pizzaMeal, sushiMeal] sushiMeal = some 95 := by
  simp [get_battle_score, difficulty_modifier, sushiMeal]
  rw [show ("Japanese".length = 8) from rfl]
  norm_num

lemma delta_pizza_sushi : |(68 : ℚ) - 95| / 100 > 1/10 := by
  rw [show |((68:ℚ) - 95)| = 27 by rw [abs_sub_comm, abs_of_nonneg] <;> norm_num]
  norm_num

lemma battle_eq_of_scores (c1 c2 : Meal) (rest : List Meal) (r s1 s2 : ℚ)
    (h1 : get_battle_score (c1 :: c2 :: rest) c1 = some s1)
    (h2 : get_battle_score (c1 :: c2 :: rest) c2 = some s2) :
    battle (c1 :: c2 :: rest) r =
      if |s1 - s2| / 100 > r then
        ⟨[.getRandom, .updateStats c1.id "win", .updateStats c2.id "loss"],
         (c1 :: c2 :: rest).erase c2, .ok c1.meal⟩
      else
        ⟨[.getRandom, .updateStats c2.id "win", .updateStats c1.id "loss"],
         (c1 :: c2 :: rest).erase c1, .ok c2.meal⟩ := by
  simp only [battle, h1, h2]
  split_ifs <;> rfl

lemma string_toList_append (a b : String) :
    (a ++ b).toList = a.toList ++ b.toList := rfl

lemma row_match_iff (row : MealRow) (id : Nat) :
    (row.id == id && !row.deleted) = true ↔ (row.id = id ∧ row.deleted = false) := by
  simp [Bool.and_eq_true, beq_iff_eq, Bool.not_eq_true']

lemma filter_orderedInsert (key : α → ℚ) (k : ℚ) (x : α) (l : List α) :
    (List.orderedInsert (keyGE key) x l).filter (fun a => key a == k) =
      if key x = k then x :: l.filter (fun a => key a == k)
      else l.filter (fun a => key a == k) := by
  rw [List.orderedInsert_eq_take_drop, List.filter_append]
  by_cases hk : key x = k
  · rw [if_pos hk]
    have htake : ((l.takeWhile fun b => decide ¬ keyGE key x b).filter
        (fun a => key a == k)) = [] := by
      rw [List.filter_eq_nil_iff]
      intro a ha
      have hmem := List.mem_takeWhile_imp ha
      have hgt : ¬ (key a ≤ key x) := by simpa [keyGE] using hmem
      simp only [beq_iff_eq]
      intro hak
      exact hgt (le_of_eq (hak.trans hk.symm))
    rw [htake, List.filter_cons]
    rw [if_pos (show ((key x == k) = true) by simp [hk])]
    conv_rhs => rw [← List.takeWhile_append_dropWhile
      (p := fun b => decide ¬ keyGE key x b) (l := l)]
    rw [List.filter_append, htake]
    rfl
  · rw [if_neg hk, List.filter_cons,
        if_neg (show ¬ ((key x == k) = true) by simp [hk])]
    conv_rhs => rw [← List.takeWhile_append_dropWhile
      (p := fun b => decide ¬ keyGE key x b) (l := l)]
    rw [List.filter_append]

lemma filter_insertionSort (key : α → ℚ) (k : ℚ) (l : List α) :
    (List.insertionSort (keyGE key) l).filter (fun a => key a == k) =
      l.filter (fun a => key a == k) := by
  induction l with
  | nil => rfl
  | cons x xs ih =>
    show (List.orderedInsert (keyGE key) x
        (List.insertionSort (keyGE key) xs)).filter (fun a => key a == k) = _
    rw [filter_orderedInsert, List.filter_cons]
    by_cases hk : key x = k
    · rw [if_pos hk, if_pos (show ((key x == k) = true) by simp [hk]), ih]
    · rw [if_neg hk, if_neg (show ¬ ((key x == k) = true) by simp [hk]), ih]

/-! ### Claim theorems -/

/-- C1: for a roster of exactly two scorable combatants and any random
sample `r` in `[0, 1)`, `battle()` declares the first combatant the winner
precisely when `|score1 - score2| / 100 > r` (full result: win/loss stat
calls, remaining roster, returned name), and otherwise declares the second
combatant the winner. -/
theorem battle_winner_rule (c1 c2 : Meal) (r s1 s2 : ℚ)
    (hr0 : 0 ≤ r) (hr1 : r < 1)
    (h1 : get_battle_score [c1, c2] c1 = some s1)
    (h2 : get_battle_score [c1, c2] c2 = some s2) :
    (|s1 - s2| / 100 > r →
      battle [c1, c2] r =
        ⟨[.getRandom, .updateStats c1.id "win", .updateStats c2.id "loss"],
         [c1], .ok c1.meal⟩) ∧
    (¬ |s1 - s2| / 100 > r →
      battle [c1, c2] r =
        ⟨[.getRandom, .updateStats c2.id "win", .updateStats c1.id "loss"],
         [c2], .ok c2.meal⟩) := by
  rw [battle_eq_of_scores c1 c2 [] r s1 s2 h1 h2]
  constructor
  · intro h; rw [if_pos h, erase_pair_right]
  · intro h; rw [if_neg h, erase_pair_left]

/-- C1 witness: scores 68 and 95 give delta 27/100 > 1/10, so the first
combatant (Pizza) wins. -/
theorem battle_winner_rule_witness :
    battle [pizzaMeal, sushiMeal] (1/10) =
      ⟨[.getRandom, .updateStats pizzaMeal.id "win",
        .updateStats sushiMeal.id "loss"],
       [pizzaMeal], .ok pizzaMeal.meal⟩ :=
  (battle_winner_rule pizzaMeal sushiMeal (1/10) 68 95 (by norm_num) (by norm_num)
      score_pizza score_sushi).1 delta_pizza_sushi

/-- C2: a successful `battle()` on a two-combatant roster leaves exactly the
winner in the roster, returns the winner's name, and issues the winner's
`'win'` stat update before the loser's `'loss'` update, with both calls
occurring. -/
theorem battle_roster_and_stat_order (c1 c2 : Meal) (r s1 s2 : ℚ)
    (h1 : get_battle_score [c1, c2] c1 = some s1)
    (h2 : get_battle_score [c1, c2] c2 = some s2) :
    ∃ winner loser : Meal,
      ((winner = c1 ∧ loser = c2) ∨ (winner = c2 ∧ loser = c1)) ∧
      battle [c1, c2] r =
        ⟨[.getRandom, .updateStats winner.id "win",
          .updateStats loser.id "loss"],
         [winner], .ok winner.meal⟩ := by
  rw [battle_eq_of_scores c1 c2 [] r s1 s2 h1 h2]
  by_cases h : |s1 - s2| / 100 > r
  · exact ⟨c1, c2, Or.inl ⟨rfl, rfl⟩, by rw [if_pos h, erase_pair_right]⟩
  · exact ⟨c2, c1, Or.inr ⟨rfl, rfl⟩, by rw [if_neg h, erase_pair_left]⟩

/-- C2 witness: the concrete Pizza-vs-Sushi battle. -/
theorem battle_roster_and_stat_order_witness :
    ∃ winner loser : Meal,
      ((winner = pizzaMeal ∧ loser = sushiMeal) ∨
       (winner = sushiMeal ∧ loser = pizzaMeal)) ∧
      battle [pizzaMeal, sushiMeal] (1/10) =
        ⟨[.getRandom, .updateStats winner.id "win",
          .updateStats loser.id "loss"],
         [winner], .ok winner.meal⟩ :=
  battle_roster_and_stat_order pizzaMeal sushiMeal (1/10) 68 95
    score_pizza score_sushi

/-- C3: for a meal whose difficulty is LOW, MED or HIGH, the battle score is
`price * length(cuisine) - weight` with weight HIGH 1, MED 2, LOW 3, and the
score depends only on the meal's fields, not on the roster state. -/
theorem get_battle_score_formula (st : List Meal) (m : Meal)
    (h : m.difficulty = "LOW" ∨ m.difficulty = "MED" ∨ m.difficulty = "HIGH") :
    (∀ st' : List Meal, get_battle_score st' m = get_battle_score st m) ∧
    get_battle_score st m = some (m.price * (m.cuisine.length : ℚ) -
      (if m.difficulty = "HIGH" then 1
       else if m.difficulty = "MED" then 2 else 3)) := by
  refine ⟨fun st' => rfl, ?_⟩
  rcases h with h | h | h <;> simp [get_battle_score, difficulty_modifier, h]

/-- C3 witness: Pizza (price 10, 7-letter cuisine, MED) scores 68. -/
theorem get_battle_score_formula_witness :
    get_battle_score [] ⟨1, "Pizza", "Italian", 10, "MED"⟩ = some 68 :=
  ((get_battle_score_formula [] ⟨1, "Pizza", "Italian", 10, "MED"⟩
      (Or.inr (Or.inl rfl))).2).trans (by
    rw [show ("Italian".length = 7) from rfl,
        if_neg (show ("MED" : String) ≠ "HIGH" by decide), if_pos rfl]
    norm_num)

/-- C4: `battle()` on a roster with fewer than two combatants fails with the
InvalidState error, makes no random-supplier call and no stat-update call
(empty event trace), and leaves the roster unchanged. -/
theorem battle_insufficient_combatants (st : List Meal) (r : ℚ)
    (h : st.length < 2) :
    battle st r =
      ⟨[], st, .error (.valueError "Two combatants must be prepped for a battle.")⟩ := by
  match st, h with
  | [], _ => rfl
  | [c], _ => rfl

/-- C4 witness: a one-combatant battle fails without any external call. -/
theorem battle_insufficient_combatants_witness :
    battle [⟨1, "Pizza", "Italian", 10, "MED"⟩] (1/2) =
      ⟨[], [⟨1, "Pizza", "Italian", 10, "MED"⟩],
       .error (.valueError "Two combatants must be prepped for a battle.")⟩ :=
  battle_insufficient_combatants [⟨1, "Pizza", "Italian", 10, "MED"⟩] (1/2)
    (by decide)

/-- C5: `updateStats` rejects any outcome other than `'win'`/`'loss'` with
InvalidInput (store untouched), increments both counters on `'win'` and only
`battles` on `'loss'` for a present, non-deleted meal, and fails with
NotFound when no non-deleted row has the id. -/
theorem update_meal_stats_rules (s : Store) (id : Nat) :
    (∀ result : String, result ≠ "win" → result ≠ "loss" →
      update_meal_stats s id result =
        .error (.invalidInput ("Invalid result: " ++ result ++
          ". Expected 'win' or 'loss'."))) ∧
    ((∃ row ∈ s.rows, row.id = id ∧ row.deleted = false) →
      update_meal_stats s id "win" =
        .ok ⟨s.rows.map (fun row =>
              if row.id = id ∧ row.deleted = false then
                { row with battles := row.battles + 1, wins := row.wins + 1 }
              else row),
            s.nextId⟩ ∧
      update_meal_stats s id "loss" =
        .ok ⟨s.rows.map (fun row =>
              if row.id = id ∧ row.deleted = false then
                { row with battles := row.battles + 1 }
              else row),
            s.nextId⟩) ∧
    ((∀ row ∈ s.rows, ¬ (row.id = id ∧ row.deleted = false)) →
      ∀ result : String, result = "win" ∨ result = "loss" →
        update_meal_stats s id result =
          .error (.notFound ("Meal with ID " ++ toString id ++ " not found"))) := by
  refine ⟨?_, ?_, ?_⟩
  · intro result h1 h2
    rw [update_meal_stats, if_pos ⟨h1, h2⟩]
  · rintro ⟨row, hmem, hid, hdel⟩
    have hany : s.rows.any (fun row => row.id == id && !row.deleted) = true :=
      List.any_eq_true.mpr ⟨row, hmem, (row_match_iff row id).mpr ⟨hid, hdel⟩⟩
    constructor
    · rw [update_meal_stats, if_neg (by simp), if_pos hany]
      refine congrArg Except.ok
        (congrArg (Store.mk · s.nextId) (List.map_congr_left ?_))
      intro r hr
      by_cases hc : r.id = id ∧ r.deleted = false
      · rw [if_pos ((row_match_iff r id).mpr hc), if_pos rfl, if_pos hc]
      · rw [if_neg (fun hb => hc ((row_match_iff r id).mp hb)), if_neg hc]
    · rw [update_meal_stats, if_neg (by simp), if_pos hany]
      refine congrArg Except.ok
        (congrArg (Store.mk · s.nextId) (List.map_congr_left ?_))
      intro r hr
      by_cases hc : r.id = id ∧ r.deleted = false
      · rw [if_pos ((row_match_iff r id).mpr hc), if_neg (by decide), if_pos hc]
      · rw [if_neg (fun hb => hc ((row_match_iff r id).mp hb)), if_neg hc]
  · intro hnone result hres
    have hany : s.rows.any (fun row => row.id == id && !row.deleted) = false := by
      rw [List.any_eq_false]
      intro row hmem hb
      exact hnone row hmem ((row_match_iff row id).mp hb)
    rcases hres with h | h <;> subst h <;>
      rw [update_meal_stats, if_neg (by simp), if_neg (by simp [hany])]

/-- C5 witness: on a one-row store, `'INVALID'` fails with InvalidInput,
`'win'` increments both counters, and an unknown id fails with NotFound. -/
theorem update_meal_stats_rules_witness :
    update_meal_stats sampleStore 1 "INVALID" =
      .error (.invalidInput "Invalid result: INVALID. Expected 'win' or 'loss'.") ∧
    update_meal_stats sampleStore 1 "win" =
      .ok ⟨[⟨1, "Pizza", "Italian", 10, "MED", 1, 1, false⟩], 2⟩ ∧
    update_meal_stats sampleStore 2 "win" =
      .error (.notFound "Meal with ID 2 not found") :=
  ⟨(update_meal_stats_rules sampleStore 1).1 "INVALID" (by decide) (by decide),
   (((update_meal_stats_rules sampleStore 1).2.1
      ⟨⟨1, "Pizza", "Italian", 10, "MED", 0, 0, false⟩, by decide, rfl, rfl⟩).1).trans
     (by norm_num [sampleStore]),
   (update_meal_stats_rules sampleStore 2).2.2 (by decide) "win" (Or.inl rfl)⟩

/-- C6: every reachable store state satisfies `wins ≤ battles` for every
row: it holds in the empty store, rows are created with both counters zero,
and every operation preserves it. -/
theorem wins_le_battles_invariant (s : Store) (h : Reachable s) :
    ∀ row ∈ s.rows, row.wins ≤ row.battles := by
  induction h with
  | init => intro row hrow; simp [emptyStore] at hrow
  | @create s s' n c p d hs hok ih =>
      rw [create_meal] at hok
      split_ifs at hok
      cases hok
      intro row hrow
      rcases List.mem_append.mp hrow with hrow | hrow
      · exact ih row hrow
      · rcases List.mem_singleton.mp hrow with rfl
        exact Nat.le_refl 0
  | @delete s s' id hs hok ih =>
      rw [delete_meal] at hok
      split_ifs at hok
      cases hok
      intro row hrow
      rcases List.mem_map.mp hrow with ⟨orig, horig, rfl⟩
      by_cases hc : (orig.id == id) = true
      · rw [if_pos hc]; exact ih orig horig
      · rw [if_neg hc]; exact ih orig horig
  | @update s s' id res hs hok ih =>
      rw [update_meal_stats] at hok
      by_cases hbad : (res ≠ "win" ∧ res ≠ "loss")
      · rw [if_pos hbad] at hok
        exact absurd hok (by simp)
      · rw [if_neg hbad] at hok
        by_cases hfound :
            (s.rows.any fun row => row.id == id && !row.deleted) = true
        · rw [if_pos hfound] at hok
          by_cases hwin : res = "win"
          · simp only [if_pos hwin] at hok
            cases hok
            intro row hrow
            rcases List.mem_map.mp hrow with ⟨orig, horig, rfl⟩
            by_cases hc : (orig.id == id && !orig.deleted) = true
            · rw [if_pos hc]
              exact Nat.add_le_add_right (ih orig horig) 1
            · rw [if_neg hc]
              exact ih orig horig
          · simp only [if_neg hwin] at hok
            cases hok
            intro row hrow
            rcases List.mem_map.mp hrow with ⟨orig, horig, rfl⟩
            by_cases hc : (orig.id == id && !orig.deleted) = true
            · rw [if_pos hc]
              exact le_trans (ih orig horig) (Nat.le_succ _)
            · rw [if_neg hc]
              exact ih orig horig
        · rw [if_neg hfound] at hok
          exact absurd hok (by simp)
  | @clear s hs _ =>
      intro row hrow; simp [clear_meals, emptyStore] at hrow

/-- C6 witness: a concrete reachable store (create Pizza, then a win)
satisfies the invariant. -/
theorem wins_le_battles_invariant_witness :
    (⟨1, "Pizza", "Italian", 10, "MED", 1, 1, false⟩ : MealRow).wins ≤
      (⟨1, "Pizza", "Italian", 10, "MED", 1, 1, false⟩ : MealRow).battles :=
  wins_le_battles_invariant storeAfterWin
    (Reachable.update
      (Reachable.create Reachable.init
        (show create_meal emptyStore "Pizza" "Italian" 10 "MED" =
            .ok storeAfterCreate by decide))
      (show update_meal_stats storeAfterCreate 1 "win" =
          .ok storeAfterWin by decide))
    ⟨1, "Pizza", "Italian", 10, "MED", 1, 1, false⟩
    (List.mem_singleton.mpr rfl)

/-- C7: `prepCombatant` fails with the Full error on a roster that already
holds two (or more) combatants, leaving the roster unchanged (the error
carries no new roster), and otherwise appends the meal at the end. -/
theorem prep_combatant_capacity (st : List Meal) (m : Meal) :
    (st.length ≥ 2 →
      prep_combatant st m =
        .error (.valueError "Combatant list is full, cannot add more combatants.")) ∧
    (st.length < 2 → prep_combatant st m = .ok (st ++ [m])) := by
  constructor
  · intro h; simp [prep_combatant, h]
  · intro h
    have hn : ¬ (st.length ≥ 2) := by omega
    simp [prep_combatant, hn]

/-- C7 witness: a full roster rejects a third combatant; an empty roster
accepts one. -/
theorem prep_combatant_capacity_witness :
    prep_combatant [pizzaMeal, sushiMeal] ⟨3, "Burger", "American", 8, "LOW"⟩ =
      .error (.valueError "Combatant list is full, cannot add more combatants.") ∧
    prep_combatant [] pizzaMeal = .ok [pizzaMeal] :=
  ⟨(prep_combatant_capacity [pizzaMeal, sushiMeal]
      ⟨3, "Burger", "American", 8, "LOW"⟩).1 (by decide),
   (prep_combatant_capacity [] pizzaMeal).2 (by decide)⟩

/-- C8: `create` rejects a non-positive price with InvalidInput whose
message contains the rejected value, and rejects a difficulty outside
LOW/MED/HIGH with InvalidInput; in both cases no row is persisted (the
operation returns only the error). -/
theorem create_meal_validation (s : Store) (meal cuisine : String) (price : ℚ)
    (difficulty : String) :
    (price ≤ 0 →
      create_meal s meal cuisine price difficulty =
        .error (.invalidInput ("Invalid price: " ++ toString price ++
          ". Price must be a positive number.")) ∧
      List.IsInfix (toString price).toList
        ("Invalid price: " ++ toString price ++
          ". Price must be a positive number.").toList) ∧
    (0 < price → difficulty ≠ "LOW" → difficulty ≠ "MED" → difficulty ≠ "HIGH" →
      create_meal s meal cuisine price difficulty =
        .error (.invalidInput ("Invalid difficulty level: " ++ difficulty ++
          ". Must be 'LOW', 'MED', or 'HIGH'."))) := by
  constructor
  · intro hp
    refine ⟨by rw [create_meal, if_pos hp], ?_⟩
    refine ⟨"Invalid price: ".toList, ". Price must be a positive number.".toList, ?_⟩
    rw [string_toList_append, string_toList_append]
  · intro hp h1 h2 h3
    rw [create_meal, if_neg (by exact absurd · (not_le.mpr hp)),
        if_pos ⟨h1, h2, h3⟩]

/-- C8 witness: creating with price -1 fails with a message containing
"-1", and an unknown difficulty fails with InvalidInput. -/
theorem create_meal_validation_witness :
    create_meal emptyStore "Pizza" "Italian" (-1) "MED" =
      .error (.invalidInput "Invalid price: -1. Price must be a positive number.") ∧
    List.IsInfix "-1".toList
      "Invalid price: -1. Price must be a positive number.".toList ∧
    create_meal emptyStore "Pizza" "Italian" 10 "INVALID" =
      .error (.invalidInput
        "Invalid difficulty level: INVALID. Must be 'LOW', 'MED', or 'HIGH'.") := by
  have h := (create_meal_validation emptyStore "Pizza" "Italian" (-1) "MED").1
    (by norm_num)
  have h2 := (create_meal_validation emptyStore "Pizza" "Italian" 10 "INVALID").2
    (by norm_num) (by decide) (by decide) (by decide)
  exact ⟨h.1.trans (by decide), h.2, h2.trans (by decide)⟩

/-- C9: the leaderboard is a permutation of the non-deleted rows paired with
their win ratios (ratio 0 when battles = 0, wins/battles otherwise), it is
sorted descending by the selected key, and for every key value the entries
with that key keep their insertion order (stability). -/
theorem get_leaderboard_spec (s : Store) (sortBy : SortBy) :
    (get_leaderboard s sortBy).Perm
      ((s.rows.filter (fun row => !row.deleted)).map
        (fun row => (row, win_ratio row))) ∧
    (∀ e ∈ get_leaderboard s sortBy,
      e.1 ∈ s.rows ∧ e.1.deleted = false ∧ e.2 = win_ratio e.1 ∧
      (e.1.battles = 0 → e.2 = 0) ∧
      (e.1.battles ≠ 0 → e.2 = (e.1.wins : ℚ) / (e.1.battles : ℚ))) ∧
    (get_leaderboard s sortBy).Sorted (keyGE (leaderboard_key sortBy)) ∧
    (∀ k : ℚ, (get_leaderboard s sortBy).filter
        (fun e => leaderboard_key sortBy e == k) =
      ((s.rows.filter (fun row => !row.deleted)).map
        (fun row => (row, win_ratio row))).filter
        (fun e => leaderboard_key sortBy e == k)) := by
  refine ⟨List.perm_insertionSort _ _, ?_, List.sorted_insertionSort _ _,
    fun k => filter_insertionSort _ k _⟩
  intro e he
  have hmem : e ∈ (s.rows.filter (fun row => !row.deleted)).map
      (fun row => (row, win_ratio row)) :=
    (List.perm_insertionSort _ _).mem_iff.mp he
  rcases List.mem_map.mp hmem with ⟨row, hrow, rfl⟩
  rcases List.mem_filter.mp hrow with ⟨hrows, hdel⟩
  refine ⟨hrows, by simpa using hdel, rfl, ?_, ?_⟩
  · intro h0
    have h0' : row.battles = 0 := h0
    simp [win_ratio, h0']
  · intro h0
    have h0' : row.battles ≠ 0 := h0
    simp [win_ratio, h0']

/-- C9 witness: the leaderboard of the sample store is a permutation of its
non-deleted rows with ratios. -/
theorem get_leaderboard_spec_witness :
    (get_leaderboard sampleStore SortBy.wins).Perm
      ((sampleStore.rows.filter (fun row => !row.deleted)).map
        (fun row => (row, win_ratio row))) :=
  (get_leaderboard_spec sampleStore SortBy.wins).1

/-- C10: the difficulty-weight lookup in `get_battle_score` succeeds exactly
on LOW, MED and HIGH: under that precondition a score is always produced,
and for any other difficulty string the lookup fails (KeyError) instead of
returning a score. -/
theorem get_battle_score_total (st : List Meal) (m : Meal) :
    (m.difficulty = "LOW" ∨ m.difficulty = "MED" ∨ m.difficulty = "HIGH" →
      ∃ q, get_battle_score st m = some q) ∧
    (m.difficulty ≠ "LOW" → m.difficulty ≠ "MED" → m.difficulty ≠ "HIGH" →
      get_battle_score st m = none) := by
  constructor
  · rintro (h | h | h)
    · exact ⟨m.price * (m.cuisine.length : ℚ) - 3,
        by simp [get_battle_score, difficulty_modifier, h]⟩
    · exact ⟨m.price * (m.cuisine.length : ℚ) - 2,
        by simp [get_battle_score, difficulty_modifier, h]⟩
    · exact ⟨m.price * (m.cuisine.length : ℚ) - 1,
        by simp [get_battle_score, difficulty_modifier, h]⟩
  · intro h1 h2 h3
    simp [get_battle_score, difficulty_modifier, h1, h2, h3]

/-- C10 witness: MED yields a score; an unknown difficulty yields none. -/
theorem get_battle_score_total_witness :
    (∃ q, get_battle_score [] ⟨1, "Pizza", "Italian", 10, "MED"⟩ = some q) ∧
    get_battle_score [] ⟨1, "Pizza", "Italian", 10, "EXTREME"⟩ = none :=
  ⟨(get_battle_score_total [] ⟨1, "Pizza", "Italian", 10, "MED"⟩).1
      (Or.inr (Or.inl rfl)),
   (get_battle_score_total [] ⟨1, "Pizza", "Italian", 10, "EXTREME"⟩).2
      (by decide) (by decide) (by decide)⟩

end MealMax
